import Mathlib

/-!
Verification of the EduWonderLab storage/handler layer
(`src/Eduwonderlab/_worker.js`).

The worker persists two record types (assignments and submissions) in a flat
key-value store and maintains one ordered ID index per type.  We embed the
KV helpers (`kvGet`, `kvPut`, `getIndex`, `pushIndex`) and the four route
handlers (`handleAssignmentsGet`, `handleAssignmentsPost`,
`handleSubmissionsGet`, `handleSubmissionsPost`) as pure Lean functions over
an explicit store, and prove the spec's claims about them.

Modelling conventions:
* The store maps string keys to raw stored strings.  A raw string is either
  unparseable by `JSON.parse` (constructor `Raw.junk`, which also covers the
  empty raw string: the JS reads `if (!v) return null` before parsing) or
  parses to a JSON value, abstracted by `Stored`.
* `Stored` distinguishes the shapes the handlers inspect: assignment
  objects, submission objects, arrays of ID strings (indexes), and all other
  JSON values abstracted to their JS truthiness (`Stored.other b`).
* Request bodies are records of `Option String` fields: `none` is an absent
  (JS `undefined`) field.  A non-string field value would make the JS throw
  a `TypeError` inside `.trim()` (no JSON response at all), so string-or-
  absent bodies are exactly the ones the handlers' contract covers.
* `uid()` and `new Date().toISOString()` are nondeterministic inputs of the
  JS; the handlers take the generated `id` and the current time `now` as
  explicit parameters.
* `getIndex` in the JS returns `parsed || []`; every caller immediately
  treats the result as an array (`.includes`, `.push`, `.map`), so a truthy
  non-array stored index value makes the request throw.  We model that
  would-throw outcome as `none` (`getIndex : ... → Option (List String)`),
  and the handlers propagate it as a `none` response.
-/

/-- JS-style whitespace test used by `String.prototype.trim`. -/
def jsWhitespace (c : Char) : Bool :=
  c = ' ' || c = '\t' || c = '\n' || c = '\r' || c = '\x0b' || c = '\x0c'

/-- `String.prototype.trim`: strip leading and trailing whitespace. -/
def jsTrim (s : String) : String :=
  ⟨((s.data.dropWhile jsWhitespace).reverse.dropWhile jsWhitespace).reverse⟩

/-- JS `x || d` for a string-or-absent value `x`: the default is taken when
the field is absent or the empty string (both falsy). -/
def jsOr (o : Option String) (d : String) : String :=
  match o with
  | none => d
  | some s => if s = "" then d else s

/-- JS truthiness of a string-or-absent value: `undefined` and `""` are the
falsy cases. -/
def jsTruthy (o : Option String) : Bool :=
  match o with
  | none => false
  | some s => if s = "" then false else true

/-- The check `!x || !x.trim()` guarding a required string field, as a
positive condition: the field is present, non-empty and non-blank. -/
def requiredTrimmed (o : Option String) : Bool :=
  match o with
  | none => false
  | some s => if s = "" then false else if jsTrim s = "" then false else true

/-- An assignment record as constructed by `handleAssignmentsPost`. -/
structure Assignment where
  id : String
  title : String
  prompt : String
  gradeBand : String
  classPin : String
  createdAt : String
deriving DecidableEq, Repr

/-- A submission record as constructed by `handleSubmissionsPost`. -/
structure Submission where
  id : String
  assignmentId : String
  studentName : String
  classPin : String
  response : String
  steps : String
  reflection : String
  submittedAt : String
deriving DecidableEq, Repr

/-- A successfully parsed JSON value in the store, abstracted to the shapes
the handlers distinguish.  `other b` is any other JSON value, carrying only
its JS truthiness `b` (e.g. `null`, `0`, `false`, `""` are `other false`). -/
inductive Stored where
  | asgn (r : Assignment)
  | subm (r : Submission)
  | index (ids : List String)
  | other (truthy : Bool)
deriving DecidableEq, Repr

/-- JS truthiness of a parsed value: objects and arrays are truthy. -/
def Stored.truthy : Stored → Bool
  | .asgn _ => true
  | .subm _ => true
  | .index _ => true
  | .other b => b

/-- JS property read `s.assignmentId`: defined on submission objects, and
`undefined` (here `none`) on every other shape. -/
def Stored.getAssignmentId : Stored → Option String
  | .subm r => some r.assignmentId
  | _ => none

/-- A raw stored string: either it fails `JSON.parse` (also the empty raw
string, rejected by `if (!v)` before parsing), or it parses to a value. -/
inductive Raw where
  | junk
  | parsed (v : Stored)
deriving DecidableEq, Repr

/-- The KV namespace: keys to raw stored strings, `none` when absent. -/
def Store := String → Option Raw

/-- The key scheme `assignment:{id}` used by the handlers. -/
def asgnKey (id : String) : String := "assignment:" ++ id

/-- The key scheme `submission:{id}` used by the handlers. -/
def subKey (id : String) : String := "submission:" ++ id

/-- The key scheme `index:{name}` used by `getIndex`/`pushIndex`. -/
def indexKey (name : String) : String := "index:" ++ name

/-- `kvGet`: read the raw value, return `null` if missing, otherwise
`JSON.parse` it, returning `null` on parse failure. -/
def kvGet (kv : Store) (key : String) : Option Stored :=
  match kv key with
  | none => none
  | some Raw.junk => none
  | some (Raw.parsed v) => some v

/-- `kvPut`: serialize and write, unconditional overwrite. -/
def kvPut (kv : Store) (key : String) (v : Stored) : Store :=
  fun k => if k = key then some (Raw.parsed v) else kv k

/-- `getIndex`: `(await kvGet(kv, "index:"+name)) || []`.  Result `some ids`
is the ID sequence the callers iterate; `none` is the would-throw case of a
truthy non-array stored value (every caller immediately applies array
operations to the result). -/
def getIndex (kv : Store) (name : String) : Option (List String) :=
  match kvGet kv (indexKey name) with
  | some (Stored.index ids) => some ids
  | some v => if v.truthy then none else some []
  | none => some []

/-- `pushIndex`: read the index, append `id` when not already present, write
the whole sequence back. -/
def pushIndex (kv : Store) (name : String) (id : String) : Option Store :=
  match getIndex kv name with
  | none => none
  | some idx =>
      let idx1 := if idx.contains id then idx else idx ++ [id]
      some (kvPut kv (indexKey name) (Stored.index idx1))

/-- A JSON response produced by a handler: `errR msg status` is
`json({ok:false, error:msg}, status)`; `createdR id item` is
`json({ok:true, id, item}, 201)`; `listR items` is
`json({ok:true, items}, 200)`. -/
inductive Resp where
  | errR (msg : String) (status : Nat)
  | createdR (id : String) (item : Stored)
  | listR (items : List Stored)
deriving DecidableEq, Repr

/-- HTTP status of a response. -/
def Resp.status : Resp → Nat
  | .errR _ s => s
  | .createdR _ _ => 201
  | .listR _ => 200

/-- The `ok` field of the response body. -/
def Resp.okField : Resp → Bool
  | .errR _ _ => false
  | .createdR _ _ => true
  | .listR _ => true

/-- `ids.map(id => kvGet(kv, pre+id))` followed by `.filter(Boolean)`:
fetch each record, drop the ones that are missing, unparseable, or parse to
a falsy value. -/
def resolveItems (kv : Store) (pre : String) (ids : List String) : List Stored :=
  ((ids.map fun i => kvGet kv (pre ++ i)).filterMap id).filter Stored.truthy

/-- `GET /api/assignments`: read the index, fetch each record, drop failed
fetches, reverse for newest-first. -/
def handleAssignmentsGet (kv : Store) : Option Resp :=
  match getIndex kv "assignments" with
  | none => none
  | some ids => some (Resp.listR (resolveItems kv "assignment:" ids).reverse)

/-- Body of `POST /api/assignments` (string-or-absent fields). -/
structure AsgnBody where
  title : Option String
  prompt : Option String
  gradeBand : Option String
  classPin : Option String
  createdAt : Option String
deriving DecidableEq, Repr

/-- The record literal built by `handleAssignmentsPost`: trim every string
field, default the optionals to `""`, default `createdAt` to the server
time `now` when the caller's value is falsy. -/
def asgnRecord (body : AsgnBody) (id now : String) : Assignment :=
  { id := id
    title := jsTrim (body.title.getD "")
    prompt := jsTrim (body.prompt.getD "")
    gradeBand := jsTrim (jsOr body.gradeBand "")
    classPin := jsTrim (jsOr body.classPin "")
    createdAt := jsOr body.createdAt now }

/-- `POST /api/assignments`: validate `title` and `prompt`, build the
record, persist it, push the ID onto the index, respond 201.  The result
pairs the final store with the response (`none` = the request threw inside
`pushIndex` on a corrupt index value). -/
def handleAssignmentsPost (kv : Store) (body : AsgnBody) (id now : String) :
    Store × Option Resp :=
  if requiredTrimmed body.title then
    if requiredTrimmed body.prompt then
      let record := asgnRecord body id now
      let kv1 := kvPut kv (asgnKey id) (Stored.asgn record)
      match pushIndex kv1 "assignments" id with
      | none => (kv1, none)
      | some kv2 => (kv2, some (Resp.createdR id (Stored.asgn record)))
    else (kv, some (Resp.errR "prompt is required" 400))
  else (kv, some (Resp.errR "title is required" 400))

/-- `GET /api/submissions`: `query` is the raw `assignmentId` query
parameter (`none` when absent; `url.searchParams.get` yields `null` then).
Fetch the indexed records, drop failed fetches, filter by exact equality on
`assignmentId` when the parameter is truthy, reverse for newest-first. -/
def handleSubmissionsGet (kv : Store) (query : Option String) : Option Resp :=
  let filterId := jsOr query ""
  match getIndex kv "submissions" with
  | none => none
  | some ids =>
      let items := resolveItems kv "submission:" ids
      let items1 := if filterId = "" then items
        else items.filter fun s => s.getAssignmentId == some filterId
      some (Resp.listR items1.reverse)

/-- Body of `POST /api/submissions` (string-or-absent fields). -/
structure SubBody where
  assignmentId : Option String
  studentName : Option String
  response : Option String
  classPin : Option String
  steps : Option String
  reflection : Option String
  submittedAt : Option String
deriving DecidableEq, Repr

/-- The record literal built by `handleSubmissionsPost`: `assignmentId` is
stored verbatim (the one string field the handler never trims), the other
string fields are trimmed, optionals default to `""`, `submittedAt`
defaults to the server time `now` when the caller's value is falsy. -/
def subRecord (body : SubBody) (id now : String) : Submission :=
  { id := id
    assignmentId := body.assignmentId.getD ""
    studentName := jsTrim (body.studentName.getD "")
    classPin := jsTrim (jsOr body.classPin "")
    response := jsTrim (body.response.getD "")
    steps := jsTrim (jsOr body.steps "")
    reflection := jsTrim (jsOr body.reflection "")
    submittedAt := jsOr body.submittedAt now }

/-- `POST /api/submissions`: validate (`assignmentId` only for truthiness,
`studentName` and `response` trimmed), resolve `assignmentId` against an
existing assignment record (404 when missing or falsy), build the record
(`assignmentId` stored verbatim, untrimmed), persist, index, respond 201. -/
def handleSubmissionsPost (kv : Store) (body : SubBody) (id now : String) :
    Store × Option Resp :=
  if jsTruthy body.assignmentId then
    if requiredTrimmed body.studentName then
      if requiredTrimmed body.response then
        let aid := body.assignmentId.getD ""
        match kvGet kv (asgnKey aid) with
        | none => (kv, some (Resp.errR "assignment not found" 404))
        | some a =>
            if a.truthy then
              let record := subRecord body id now
              let kv1 := kvPut kv (subKey id) (Stored.subm record)
              match pushIndex kv1 "submissions" id with
              | none => (kv1, none)
              | some kv2 => (kv2, some (Resp.createdR id (Stored.subm record)))
            else (kv, some (Resp.errR "assignment not found" 404))
      else (kv, some (Resp.errR "response is required" 400))
    else (kv, some (Resp.errR "studentName is required" 400))
  else (kv, some (Resp.errR "assignmentId is required" 400))

/-- The empty KV namespace. -/
def emptyStore : Store := fun _ => none

/-! ### Store and key lemmas -/

theorem kvGet_kvPut_same (kv : Store) (k : String) (v : Stored) :
    kvGet (kvPut kv k v) k = some v := by
  simp [kvGet, kvPut]

theorem kvGet_kvPut_ne (kv : Store) (k k' : String) (v : Stored) (h : k' ≠ k) :
    kvGet (kvPut kv k v) k' = kvGet kv k' := by
  simp [kvGet, kvPut, h]

theorem kvPut_kvPut_same (kv : Store) (k : String) (v : Stored) :
    kvPut (kvPut kv k v) k v = kvPut kv k v := by
  funext k'
  by_cases h : k' = k <;> simp [kvPut, h]

theorem getIndex_kvPut_index (kv : Store) (name : String) (ids : List String) :
    getIndex (kvPut kv (indexKey name) (Stored.index ids)) name = some ids := by
  simp [getIndex, kvGet_kvPut_same]

theorem getIndex_kvPut_ne (kv : Store) (k : String) (v : Stored) (name : String)
    (h : indexKey name ≠ k) :
    getIndex (kvPut kv k v) name = getIndex kv name := by
  simp [getIndex, kvGet_kvPut_ne _ _ _ _ h]

/-- Two prefixed keys with different leading characters are never equal. -/
theorem key_head_ne (p q : String) (a b : Char)
    (hp : p.data.head? = some a) (hq : q.data.head? = some b) (hab : a ≠ b)
    (x y : String) : p ++ x ≠ q ++ y := by
  intro h
  have h2 := congrArg String.data h
  rw [String.data_append, String.data_append] at h2
  have h3 := congrArg List.head? h2
  rw [List.head?_append, List.head?_append, hp, hq] at h3
  simp at h3
  exact hab h3

theorem asgnKey_ne_indexKey (id name : String) : asgnKey id ≠ indexKey name :=
  key_head_ne "assignment:" "index:" 'a' 'i' (by decide) (by decide) (by decide) id name

theorem subKey_ne_indexKey (id name : String) : subKey id ≠ indexKey name :=
  key_head_ne "submission:" "index:" 's' 'i' (by decide) (by decide) (by decide) id name

theorem subKey_ne_asgnKey (i j : String) : subKey i ≠ asgnKey j :=
  key_head_ne "submission:" "assignment:" 's' 'a' (by decide) (by decide) (by decide) i j

theorem strAppend_left_cancel {p a b : String} (h : p ++ a = p ++ b) : a = b := by
  have h2 := congrArg String.data h
  rw [String.data_append, String.data_append] at h2
  exact String.ext (List.append_cancel_left h2)

theorem asgnKey_inj {a b : String} (h : asgnKey a = asgnKey b) : a = b :=
  strAppend_left_cancel h

theorem subKey_inj {a b : String} (h : subKey a = subKey b) : a = b :=
  strAppend_left_cancel h

/-! ### Unfolding lemmas for the handlers -/

theorem pushIndex_eq (kv : Store) (name id : String) (idx : List String)
    (h : getIndex kv name = some idx) :
    pushIndex kv name id =
      some (kvPut kv (indexKey name)
        (Stored.index (if idx.contains id then idx else idx ++ [id]))) := by
  simp [pushIndex, h]

theorem handleAssignmentsPost_success (kv : Store) (body : AsgnBody) (id now : String)
    (idx : List String)
    (ht : requiredTrimmed body.title = true) (hp : requiredTrimmed body.prompt = true)
    (hidx : getIndex kv "assignments" = some idx) :
    handleAssignmentsPost kv body id now =
      (kvPut (kvPut kv (asgnKey id) (Stored.asgn (asgnRecord body id now)))
         (indexKey "assignments")
         (Stored.index (if idx.contains id then idx else idx ++ [id])),
       some (Resp.createdR id (Stored.asgn (asgnRecord body id now)))) := by
  have h1 : getIndex (kvPut kv (asgnKey id) (Stored.asgn (asgnRecord body id now)))
      "assignments" = some idx := by
    rw [getIndex_kvPut_ne _ _ _ _ (asgnKey_ne_indexKey id "assignments").symm]
    exact hidx
  simp [handleAssignmentsPost, ht, hp, pushIndex_eq _ _ _ _ h1]

theorem handleSubmissionsPost_success (kv : Store) (body : SubBody) (id now aid : String)
    (idx : List String) (a : Stored)
    (ha : body.assignmentId = some aid)
    (haT : jsTruthy body.assignmentId = true)
    (hs : requiredTrimmed body.studentName = true)
    (hr : requiredTrimmed body.response = true)
    (hget : kvGet kv (asgnKey aid) = some a) (htr : a.truthy = true)
    (hidx : getIndex kv "submissions" = some idx) :
    handleSubmissionsPost kv body id now =
      (kvPut (kvPut kv (subKey id) (Stored.subm (subRecord body id now)))
         (indexKey "submissions")
         (Stored.index (if idx.contains id then idx else idx ++ [id])),
       some (Resp.createdR id (Stored.subm (subRecord body id now)))) := by
  have h1 : getIndex (kvPut kv (subKey id) (Stored.subm (subRecord body id now)))
      "submissions" = some idx := by
    rw [getIndex_kvPut_ne _ _ _ _ (subKey_ne_indexKey id "submissions").symm]
    exact hidx
  have haid : body.assignmentId.getD "" = aid := by rw [ha]; rfl
  simp [handleSubmissionsPost, haT, hs, hr, haid, hget, htr, pushIndex_eq _ _ _ _ h1]

/-! ### `resolveItems` lemmas -/

theorem resolveItems_nil (kv : Store) (pre : String) :
    resolveItems kv pre [] = [] := by
  simp [resolveItems]

theorem resolveItems_cons_hit (kv : Store) (pre i : String) (ids : List String)
    (v : Stored) (h : kvGet kv (pre ++ i) = some v) (ht : v.truthy = true) :
    resolveItems kv pre (i :: ids) = v :: resolveItems kv pre ids := by
  simp [resolveItems, h, ht]

theorem resolveItems_cons_miss (kv : Store) (pre i : String) (ids : List String)
    (h : kvGet kv (pre ++ i) = none) :
    resolveItems kv pre (i :: ids) = resolveItems kv pre ids := by
  simp [resolveItems, h]

theorem resolveItems_cons_falsy (kv : Store) (pre i : String) (ids : List String)
    (v : Stored) (h : kvGet kv (pre ++ i) = some v) (ht : v.truthy = false) :
    resolveItems kv pre (i :: ids) = resolveItems kv pre ids := by
  simp [resolveItems, h, ht]

theorem mem_resolveItems (kv : Store) (pre i : String) (ids : List String)
    (v : Stored) (hi : i ∈ ids) (hg : kvGet kv (pre ++ i) = some v)
    (ht : v.truthy = true) : v ∈ resolveItems kv pre ids := by
  refine List.mem_filter.2 ⟨?_, ht⟩
  refine List.mem_filterMap.2 ⟨some v, ?_, rfl⟩
  exact List.mem_map.2 ⟨i, hi, hg⟩

theorem pushIndex_mem (kv : Store) (name id : String) (idx : List String)
    (h : getIndex kv name = some idx) (hc : id ∈ idx) :
    pushIndex kv name id = some (kvPut kv (indexKey name) (Stored.index idx)) := by
  simp [pushIndex, h, hc]

theorem pushIndex_not_mem (kv : Store) (name id : String) (idx : List String)
    (h : getIndex kv name = some idx) (hc : id ∉ idx) :
    pushIndex kv name id
      = some (kvPut kv (indexKey name) (Stored.index (idx ++ [id]))) := by
  simp [pushIndex, h, hc]

theorem requiredTrimmed_eq_false (o : Option String)
    (h : o = none ∨ ∃ s, o = some s ∧ jsTrim s = "") :
    requiredTrimmed o = false := by
  rcases h with h | ⟨s, hs, ht⟩
  · rw [h]; rfl
  · rw [hs]; simp [requiredTrimmed, ht]

/-! ### The claims -/

/-- Claim C5: a Create-Assignment request whose `title` is missing, empty or
whitespace-only is answered 400 with the field-naming message
`"title is required"` and the store is untouched (the handler returns the
input store unchanged); likewise for `prompt` once `title` passes. -/
theorem claim_C5 (kv : Store) (b1 b2 : AsgnBody) (id now : String)
    (h1 : b1.title = none ∨ ∃ s, b1.title = some s ∧ jsTrim s = "")
    (h2t : requiredTrimmed b2.title = true)
    (h2 : b2.prompt = none ∨ ∃ s, b2.prompt = some s ∧ jsTrim s = "") :
    handleAssignmentsPost kv b1 id now = (kv, some (Resp.errR "title is required" 400))
    ∧ handleAssignmentsPost kv b2 id now = (kv, some (Resp.errR "prompt is required" 400))
    ∧ (Resp.errR "title is required" 400).status = 400
    ∧ (Resp.errR "prompt is required" 400).status = 400 := by
  refine ⟨?_, ?_, rfl, rfl⟩
  · simp [handleAssignmentsPost, requiredTrimmed_eq_false _ h1]
  · simp [handleAssignmentsPost, h2t, requiredTrimmed_eq_false _ h2]

/-- Witness for C5: one blank title, one blank prompt, on the empty store. -/
theorem claim_C5_witness :
    handleAssignmentsPost emptyStore ⟨some " ", some "p", none, none, none⟩ "i" "n"
      = (emptyStore, some (Resp.errR "title is required" 400))
    ∧ handleAssignmentsPost emptyStore ⟨some "t", some "", none, none, none⟩ "i" "n"
      = (emptyStore, some (Resp.errR "prompt is required" 400))
    ∧ (Resp.errR "title is required" 400).status = 400
    ∧ (Resp.errR "prompt is required" 400).status = 400 :=
  claim_C5 emptyStore ⟨some " ", some "p", none, none, none⟩
    ⟨some "t", some "", none, none, none⟩ "i" "n"
    (Or.inr ⟨" ", rfl, by decide⟩) (by decide) (Or.inr ⟨"", rfl, by decide⟩)

/-- Claim C8: `kvGet` answers `none` both for an absent key and for a key
holding an unparseable raw value, surfacing no error; `getIndex` answers
the empty ID sequence in both of those cases. -/
theorem claim_C8 (kv : Store) (k1 k2 n1 n2 : String)
    (h1 : kv k1 = none) (h2 : kv k2 = some Raw.junk)
    (h3 : kv (indexKey n1) = none) (h4 : kv (indexKey n2) = some Raw.junk) :
    kvGet kv k1 = none ∧ kvGet kv k2 = none
    ∧ getIndex kv n1 = some [] ∧ getIndex kv n2 = some [] := by
  refine ⟨?_, ?_, ?_, ?_⟩ <;> simp [kvGet, getIndex, h1, h2, h3, h4]

/-- A store with one unparseable index value and one unparseable record. -/
def kvC8 : Store := fun k =>
  if k = indexKey "b" then some Raw.junk
  else if k = "j" then some Raw.junk
  else none

/-- Witness for C8 on a concrete store. -/
theorem claim_C8_witness :
    kvGet kvC8 "x" = none ∧ kvGet kvC8 "j" = none
    ∧ getIndex kvC8 "a" = some [] ∧ getIndex kvC8 "b" = some [] :=
  claim_C8 kvC8 "x" "j" "a" "b" (by decide) (by decide) (by decide) (by decide)

/-- Claim C2: `pushIndex` is idempotent and duplicate-free: pushing the
same ID twice writes the same index as pushing it once; a fresh ID is
appended at the end; a present ID leaves the index unchanged; and the
resulting index contains the ID and preserves `Nodup`, so no ID ever
occurs twice. -/
theorem claim_C2 (kv : Store) (name id : String) (idx : List String)
    (h : getIndex kv name = some idx) :
    ∃ kv1, pushIndex kv name id = some kv1
      ∧ pushIndex kv1 name id = some kv1
      ∧ (id ∉ idx → getIndex kv1 name = some (idx ++ [id]))
      ∧ (id ∈ idx → getIndex kv1 name = some idx)
      ∧ ∃ idx1, getIndex kv1 name = some idx1 ∧ id ∈ idx1
          ∧ (idx.Nodup → idx1.Nodup) := by
  by_cases hc : id ∈ idx
  · refine ⟨kvPut kv (indexKey name) (Stored.index idx),
      pushIndex_mem kv name id idx h hc, ?_, ?_, ?_, idx, ?_, hc, ?_⟩
    · rw [pushIndex_mem _ name id idx (getIndex_kvPut_index kv name idx) hc,
        kvPut_kvPut_same]
    · intro hn; exact absurd hc hn
    · intro _; exact getIndex_kvPut_index kv name idx
    · exact getIndex_kvPut_index kv name idx
    · exact fun hn => hn
  · refine ⟨kvPut kv (indexKey name) (Stored.index (idx ++ [id])),
      pushIndex_not_mem kv name id idx h hc, ?_, ?_, ?_, idx ++ [id], ?_, ?_, ?_⟩
    · rw [pushIndex_mem _ name id (idx ++ [id])
        (getIndex_kvPut_index kv name (idx ++ [id])) (by simp), kvPut_kvPut_same]
    · intro _; exact getIndex_kvPut_index kv name (idx ++ [id])
    · intro hmem; exact absurd hmem hc
    · exact getIndex_kvPut_index kv name (idx ++ [id])
    · simp
    · intro hn; simp [List.nodup_append, hn, hc]

/-- Witness for C2: push a fresh ID onto the empty index. -/
theorem claim_C2_witness :
    ∃ kv1, pushIndex emptyStore "assignments" "a" = some kv1
      ∧ pushIndex kv1 "assignments" "a" = some kv1
      ∧ ("a" ∉ ([] : List String) → getIndex kv1 "assignments" = some ([] ++ ["a"]))
      ∧ ("a" ∈ ([] : List String) → getIndex kv1 "assignments" = some [])
      ∧ ∃ idx1, getIndex kv1 "assignments" = some idx1 ∧ "a" ∈ idx1
          ∧ (([] : List String).Nodup → idx1.Nodup) :=
  claim_C2 emptyStore "assignments" "a" [] (by decide)

/-- Claim C4: a Create-Submission request that passes the field checks but
whose `assignmentId` does not resolve to a persisted assignment record is
answered 404 `"assignment not found"` (a status distinct from the 400 of a
plain validation failure); no submission record is persisted, the
submissions index is untouched, and the whole store is unchanged. -/
theorem claim_C4 (kv : Store) (body : SubBody) (id now aid : String)
    (ha : body.assignmentId = some aid) (hne : aid ≠ "")
    (hs : requiredTrimmed body.studentName = true)
    (hr : requiredTrimmed body.response = true)
    (hmiss : ∀ v, kvGet kv (asgnKey aid) = some v → v.truthy = false) :
    handleSubmissionsPost kv body id now
      = (kv, some (Resp.errR "assignment not found" 404))
    ∧ (Resp.errR "assignment not found" 404).status = 404
    ∧ (Resp.errR "assignment not found" 404).status ≠ 400
    ∧ (handleSubmissionsPost kv body id now).1 = kv
    ∧ kvGet ((handleSubmissionsPost kv body id now).1) (subKey id)
        = kvGet kv (subKey id)
    ∧ getIndex ((handleSubmissionsPost kv body id now).1) "submissions"
        = getIndex kv "submissions" := by
  have haid : body.assignmentId.getD "" = aid := by rw [ha]; rfl
  have haT : jsTruthy body.assignmentId = true := by rw [ha]; simp [jsTruthy, hne]
  have hmain : handleSubmissionsPost kv body id now
      = (kv, some (Resp.errR "assignment not found" 404)) := by
    cases hk : kvGet kv (asgnKey aid) with
    | none => simp [handleSubmissionsPost, haT, hs, hr, haid, hk]
    | some v => simp [handleSubmissionsPost, haT, hs, hr, haid, hk, hmiss v hk]
  exact ⟨hmain, rfl, by decide, by rw [hmain], by rw [hmain], by rw [hmain]⟩

/-- Witness for C4: a well-formed submission against an empty store. -/
theorem claim_C4_witness :
    handleSubmissionsPost emptyStore ⟨some "m", some "Ana", some "r", none, none, none, none⟩
        "s1" "n" = (emptyStore, some (Resp.errR "assignment not found" 404))
    ∧ (Resp.errR "assignment not found" 404).status = 404
    ∧ (Resp.errR "assignment not found" 404).status ≠ 400
    ∧ (handleSubmissionsPost emptyStore
        ⟨some "m", some "Ana", some "r", none, none, none, none⟩ "s1" "n").1 = emptyStore
    ∧ kvGet ((handleSubmissionsPost emptyStore
        ⟨some "m", some "Ana", some "r", none, none, none, none⟩ "s1" "n").1) (subKey "s1")
        = kvGet emptyStore (subKey "s1")
    ∧ getIndex ((handleSubmissionsPost emptyStore
        ⟨some "m", some "Ana", some "r", none, none, none, none⟩ "s1" "n").1) "submissions"
        = getIndex emptyStore "submissions" :=
  claim_C4 emptyStore ⟨some "m", some "Ana", some "r", none, none, none, none⟩ "s1" "n" "m"
    rfl (by decide) (by decide) (by decide)
    (by intro v hv; simp [kvGet, emptyStore] at hv)

theorem handleAssignmentsPost_success_fresh (kv : Store) (body : AsgnBody)
    (id now : String) (idx : List String)
    (ht : requiredTrimmed body.title = true) (hp : requiredTrimmed body.prompt = true)
    (hidx : getIndex kv "assignments" = some idx) (hfresh : id ∉ idx) :
    handleAssignmentsPost kv body id now =
      (kvPut (kvPut kv (asgnKey id) (Stored.asgn (asgnRecord body id now)))
         (indexKey "assignments") (Stored.index (idx ++ [id])),
       some (Resp.createdR id (Stored.asgn (asgnRecord body id now)))) := by
  rw [handleAssignmentsPost_success kv body id now idx ht hp hidx]
  simp [hfresh]

theorem handleAssignmentsGet_eq (kv : Store) (ids : List String)
    (hidx : getIndex kv "assignments" = some ids) :
    handleAssignmentsGet kv
      = some (Resp.listR (resolveItems kv "assignment:" ids).reverse) := by
  simp [handleAssignmentsGet, hidx]

/-- Claim C1: for every Create-Assignment body whose `title` and `prompt`
are non-blank after trimming (and any store whose assignments index is
readable), the handler responds 201 `{ok:true, id, item}` where `item` is
exactly the record persisted under `assignment:{id}`, the ID is in the
written index, and a subsequent List-Assignments call includes the record. -/
theorem claim_C1 (kv : Store) (body : AsgnBody) (id now : String) (idx : List String)
    (ht : requiredTrimmed body.title = true)
    (hp : requiredTrimmed body.prompt = true)
    (hidx : getIndex kv "assignments" = some idx) :
    ∃ kv2, handleAssignmentsPost kv body id now
        = (kv2, some (Resp.createdR id (Stored.asgn (asgnRecord body id now))))
      ∧ (Resp.createdR id (Stored.asgn (asgnRecord body id now))).status = 201
      ∧ (Resp.createdR id (Stored.asgn (asgnRecord body id now))).okField = true
      ∧ kvGet kv2 (asgnKey id) = some (Stored.asgn (asgnRecord body id now))
      ∧ (∃ idx2, getIndex kv2 "assignments" = some idx2 ∧ id ∈ idx2)
      ∧ ∃ items, handleAssignmentsGet kv2 = some (Resp.listR items)
          ∧ Stored.asgn (asgnRecord body id now) ∈ items := by
  have hmain := handleAssignmentsPost_success kv body id now idx ht hp hidx
  refine ⟨_, hmain, rfl, rfl, ?_, ?_, ?_⟩
  · rw [kvGet_kvPut_ne _ _ _ _ (asgnKey_ne_indexKey id "assignments"), kvGet_kvPut_same]
  · refine ⟨_, getIndex_kvPut_index _ "assignments" _, ?_⟩
    by_cases hc : id ∈ idx <;> simp [hc]
  · refine ⟨_, handleAssignmentsGet_eq _ _ (getIndex_kvPut_index _ "assignments" _), ?_⟩
    rw [List.mem_reverse]
    refine mem_resolveItems _ "assignment:" id _ _ ?_ ?_ rfl
    · by_cases hc : id ∈ idx <;> simp [hc]
    · show kvGet _ (asgnKey id) = _
      rw [kvGet_kvPut_ne _ _ _ _ (asgnKey_ne_indexKey id "assignments"), kvGet_kvPut_same]

/-- Witness for C1: create one assignment in the empty store. -/
theorem claim_C1_witness :
    ∃ kv2, handleAssignmentsPost emptyStore ⟨some "T", some "P", none, none, none⟩ "a1" "N"
        = (kv2, some (Resp.createdR "a1"
            (Stored.asgn (asgnRecord ⟨some "T", some "P", none, none, none⟩ "a1" "N"))))
      ∧ (Resp.createdR "a1"
          (Stored.asgn (asgnRecord ⟨some "T", some "P", none, none, none⟩ "a1" "N"))).status = 201
      ∧ (Resp.createdR "a1"
          (Stored.asgn (asgnRecord ⟨some "T", some "P", none, none, none⟩ "a1" "N"))).okField = true
      ∧ kvGet kv2 (asgnKey "a1")
          = some (Stored.asgn (asgnRecord ⟨some "T", some "P", none, none, none⟩ "a1" "N"))
      ∧ (∃ idx2, getIndex kv2 "assignments" = some idx2 ∧ "a1" ∈ idx2)
      ∧ ∃ items, handleAssignmentsGet kv2 = some (Resp.listR items)
          ∧ Stored.asgn (asgnRecord ⟨some "T", some "P", none, none, none⟩ "a1" "N") ∈ items :=
  claim_C1 emptyStore ⟨some "T", some "P", none, none, none⟩ "a1" "N" []
    (by decide) (by decide) (by decide)

theorem kvGet_twoPuts_ne (s : Store) (i j : String) (v w : Stored) (hne : i ≠ j) :
    kvGet (kvPut (kvPut s (asgnKey j) v) (indexKey "assignments") w) (asgnKey i)
      = kvGet s (asgnKey i) := by
  rw [kvGet_kvPut_ne _ _ _ _ (asgnKey_ne_indexKey i "assignments"),
    kvGet_kvPut_ne _ _ _ _ (fun h => hne (asgnKey_inj h))]

theorem kvGet_twoPuts_same (s : Store) (i : String) (v w : Stored) :
    kvGet (kvPut (kvPut s (asgnKey i) v) (indexKey "assignments") w) (asgnKey i)
      = some v := by
  rw [kvGet_kvPut_ne _ _ _ _ (asgnKey_ne_indexKey i "assignments"), kvGet_kvPut_same]

theorem resolveItems_DABC (kv : Store) (A B C D : String) (vA vB vC w1 w2 w3 : Stored)
    (hAB : A ≠ B) (hAC : A ≠ C) (hBC : B ≠ C)
    (hDA : D ≠ A) (hDB : D ≠ B) (hDC : D ≠ C)
    (hvA : vA.truthy = true) (hvB : vB.truthy = true) (hvC : vC.truthy = true)
    (hD : ∀ v, kvGet kv (asgnKey D) = some v → v.truthy = false) :
    resolveItems
      (kvPut (kvPut (kvPut (kvPut (kvPut (kvPut kv (asgnKey A) vA)
        (indexKey "assignments") w1) (asgnKey B) vB) (indexKey "assignments") w2)
        (asgnKey C) vC) (indexKey "assignments") w3)
      "assignment:" [D, A, B, C] = [vA, vB, vC] := by
  have hgD := (kvGet_twoPuts_ne
      (kvPut (kvPut (kvPut (kvPut kv (asgnKey A) vA) (indexKey "assignments") w1)
        (asgnKey B) vB) (indexKey "assignments") w2) D C vC w3 hDC).trans
    ((kvGet_twoPuts_ne (kvPut (kvPut kv (asgnKey A) vA) (indexKey "assignments") w1)
        D B vB w2 hDB).trans
      (kvGet_twoPuts_ne kv D A vA w1 hDA))
  have hgA := (kvGet_twoPuts_ne
      (kvPut (kvPut (kvPut (kvPut kv (asgnKey A) vA) (indexKey "assignments") w1)
        (asgnKey B) vB) (indexKey "assignments") w2) A C vC w3 hAC).trans
    ((kvGet_twoPuts_ne (kvPut (kvPut kv (asgnKey A) vA) (indexKey "assignments") w1)
        A B vB w2 hAB).trans
      (kvGet_twoPuts_same kv A vA w1))
  have hgB := (kvGet_twoPuts_ne
      (kvPut (kvPut (kvPut (kvPut kv (asgnKey A) vA) (indexKey "assignments") w1)
        (asgnKey B) vB) (indexKey "assignments") w2) B C vC w3 hBC).trans
    (kvGet_twoPuts_same (kvPut (kvPut kv (asgnKey A) vA) (indexKey "assignments") w1)
      B vB w2)
  have hgC := kvGet_twoPuts_same
    (kvPut (kvPut (kvPut (kvPut kv (asgnKey A) vA) (indexKey "assignments") w1)
      (asgnKey B) vB) (indexKey "assignments") w2) C vC w3
  have htail : resolveItems
      (kvPut (kvPut (kvPut (kvPut (kvPut (kvPut kv (asgnKey A) vA)
        (indexKey "assignments") w1) (asgnKey B) vB) (indexKey "assignments") w2)
        (asgnKey C) vC) (indexKey "assignments") w3)
      "assignment:" [A, B, C] = [vA, vB, vC] := by
    rw [resolveItems_cons_hit _ _ _ _ _ hgA hvA, resolveItems_cons_hit _ _ _ _ _ hgB hvB,
      resolveItems_cons_hit _ _ _ _ _ hgC hvC, resolveItems_nil]
  cases hk : kvGet kv (asgnKey D) with
  | none => rw [resolveItems_cons_miss _ _ _ _ (hgD.trans hk), htail]
  | some v => rw [resolveItems_cons_falsy _ _ _ _ v (hgD.trans hk) (hD v hk), htail]

/-- Claim C3: List-Assignments returns the records named by the
`assignments` index in reverse insertion order.  Starting from a store
whose index holds one dangling ID `D` (its record absent or falsy, hence
dropped), creating assignments in order `A`, `B`, `C` yields the index
`[D, A, B, C]` and the listing `[C, B, A]`: the dangling ID is dropped, the
rest are assembled in index order and the sequence is then reversed. -/
theorem claim_C3 (kv : Store) (bA bB bC : AsgnBody) (A B C D nowA nowB nowC : String)
    (htA : requiredTrimmed bA.title = true) (hpA : requiredTrimmed bA.prompt = true)
    (htB : requiredTrimmed bB.title = true) (hpB : requiredTrimmed bB.prompt = true)
    (htC : requiredTrimmed bC.title = true) (hpC : requiredTrimmed bC.prompt = true)
    (hAB : A ≠ B) (hAC : A ≠ C) (hBC : B ≠ C)
    (hDA : D ≠ A) (hDB : D ≠ B) (hDC : D ≠ C)
    (hidx : getIndex kv "assignments" = some [D])
    (hD : ∀ v, kvGet kv (asgnKey D) = some v → v.truthy = false) :
    ∃ kv1 kv2 kv3,
      handleAssignmentsPost kv bA A nowA
        = (kv1, some (Resp.createdR A (Stored.asgn (asgnRecord bA A nowA))))
      ∧ handleAssignmentsPost kv1 bB B nowB
        = (kv2, some (Resp.createdR B (Stored.asgn (asgnRecord bB B nowB))))
      ∧ handleAssignmentsPost kv2 bC C nowC
        = (kv3, some (Resp.createdR C (Stored.asgn (asgnRecord bC C nowC))))
      ∧ getIndex kv3 "assignments" = some [D, A, B, C]
      ∧ handleAssignmentsGet kv3
        = some (Resp.listR [Stored.asgn (asgnRecord bC C nowC),
            Stored.asgn (asgnRecord bB B nowB), Stored.asgn (asgnRecord bA A nowA)]) := by
  have hmA : A ∉ [D] := by
    intro h; exact hDA (List.mem_singleton.1 h).symm
  have hmB : B ∉ [D, A] := by
    intro h
    rcases List.mem_cons.1 h with h | h
    · exact hDB h.symm
    · exact hAB (List.mem_singleton.1 h).symm
  have hmC : C ∉ [D, A, B] := by
    intro h
    rcases List.mem_cons.1 h with h | h
    · exact hDC h.symm
    rcases List.mem_cons.1 h with h | h
    · exact hAC h.symm
    · exact hBC (List.mem_singleton.1 h).symm
  have e1 := handleAssignmentsPost_success_fresh kv bA A nowA [D] htA hpA hidx hmA
  rw [List.singleton_append] at e1
  have hidx1 : getIndex (kvPut (kvPut kv (asgnKey A) (Stored.asgn (asgnRecord bA A nowA)))
      (indexKey "assignments") (Stored.index [D, A])) "assignments" = some [D, A] :=
    getIndex_kvPut_index _ "assignments" [D, A]
  have e2 := handleAssignmentsPost_success_fresh _ bB B nowB [D, A] htB hpB hidx1 hmB
  rw [List.cons_append, List.singleton_append] at e2
  have hidx2 : getIndex (kvPut (kvPut (kvPut (kvPut kv
      (asgnKey A) (Stored.asgn (asgnRecord bA A nowA)))
      (indexKey "assignments") (Stored.index [D, A]))
      (asgnKey B) (Stored.asgn (asgnRecord bB B nowB)))
      (indexKey "assignments") (Stored.index [D, A, B])) "assignments"
      = some [D, A, B] :=
    getIndex_kvPut_index _ "assignments" [D, A, B]
  have e3 := handleAssignmentsPost_success_fresh _ bC C nowC [D, A, B] htC hpC hidx2 hmC
  rw [List.cons_append, List.cons_append, List.singleton_append] at e3
  refine ⟨_, _, _, e1, e2, e3, getIndex_kvPut_index _ "assignments" _, ?_⟩
  rw [handleAssignmentsGet_eq _ _ (getIndex_kvPut_index _ "assignments" [D, A, B, C])]
  rw [resolveItems_DABC kv A B C D (Stored.asgn (asgnRecord bA A nowA))
    (Stored.asgn (asgnRecord bB B nowB)) (Stored.asgn (asgnRecord bC C nowC))
    _ _ _ hAB hAC hBC hDA hDB hDC rfl rfl rfl hD]
  simp

/-- A store whose assignments index holds one dangling ID `"d"`. -/
def kvC3 : Store := fun k =>
  if k = indexKey "assignments" then some (Raw.parsed (Stored.index ["d"])) else none

/-- Witness for C3: create three assignments over a store with one
dangling indexed ID, and list them newest-first. -/
theorem claim_C3_witness :
    ∃ kv1 kv2 kv3,
      handleAssignmentsPost kvC3 ⟨some "T", some "P", none, none, none⟩ "a1" "n1"
        = (kv1, some (Resp.createdR "a1"
            (Stored.asgn (asgnRecord ⟨some "T", some "P", none, none, none⟩ "a1" "n1"))))
      ∧ handleAssignmentsPost kv1 ⟨some "T", some "P", none, none, none⟩ "b1" "n2"
        = (kv2, some (Resp.createdR "b1"
            (Stored.asgn (asgnRecord ⟨some "T", some "P", none, none, none⟩ "b1" "n2"))))
      ∧ handleAssignmentsPost kv2 ⟨some "T", some "P", none, none, none⟩ "c1" "n3"
        = (kv3, some (Resp.createdR "c1"
            (Stored.asgn (asgnRecord ⟨some "T", some "P", none, none, none⟩ "c1" "n3"))))
      ∧ getIndex kv3 "assignments" = some ["d", "a1", "b1", "c1"]
      ∧ handleAssignmentsGet kv3
        = some (Resp.listR
            [Stored.asgn (asgnRecord ⟨some "T", some "P", none, none, none⟩ "c1" "n3"),
             Stored.asgn (asgnRecord ⟨some "T", some "P", none, none, none⟩ "b1" "n2"),
             Stored.asgn (asgnRecord ⟨some "T", some "P", none, none, none⟩ "a1" "n1")]) :=
  claim_C3 kvC3 ⟨some "T", some "P", none, none, none⟩ ⟨some "T", some "P", none, none, none⟩
    ⟨some "T", some "P", none, none, none⟩ "a1" "b1" "c1" "d" "n1" "n2" "n3"
    (by decide) (by decide) (by decide) (by decide) (by decide) (by decide)
    (by decide) (by decide) (by decide) (by decide) (by decide) (by decide)
    (by decide)
    (by
      intro v hv
      have h0 : kvGet kvC3 (asgnKey "d") = none := by decide
      rw [h0] at hv
      exact Option.noConfusion hv)

theorem handleSubmissionsGet_filter_eq (kv : Store) (ids : List String) (X : String)
    (hX : X ≠ "") (hidx : getIndex kv "submissions" = some ids) :
    handleSubmissionsGet kv (some X)
      = some (Resp.listR (((resolveItems kv "submission:" ids).filter
          fun s => s.getAssignmentId == some X).reverse)) := by
  simp [handleSubmissionsGet, jsOr, hX, hidx]

/-- Claim C6: with a non-empty `assignmentId` query value `X`,
List-Submissions returns exactly the resolvable submissions whose
`assignmentId` field equals `X` under exact string equality, filtered after
fetching and before the newest-first reversal; in the two-submission
scenario (S1 with `assignmentId = X`, S2 with `assignmentId = Y ≠ X`) the
result is `[S1]` alone. -/
theorem claim_C6 (kv kvS : Store) (ids : List String) (X Y i1 i2 : String)
    (r1 r2 : Submission)
    (hX : X ≠ "")
    (hidx : getIndex kv "submissions" = some ids)
    (hYX : Y ≠ X)
    (hidxS : getIndex kvS "submissions" = some [i1, i2])
    (hg1 : kvGet kvS (subKey i1) = some (Stored.subm r1))
    (hg2 : kvGet kvS (subKey i2) = some (Stored.subm r2))
    (ha1 : r1.assignmentId = X) (ha2 : r2.assignmentId = Y) :
    (∃ items : List Stored, handleSubmissionsGet kv (some X) = some (Resp.listR items.reverse)
      ∧ ∀ v, v ∈ items ↔ (v ∈ resolveItems kv "submission:" ids
          ∧ v.getAssignmentId = some X))
    ∧ handleSubmissionsGet kvS (some X) = some (Resp.listR [Stored.subm r1]) := by
  constructor
  · refine ⟨_, handleSubmissionsGet_filter_eq kv ids X hX hidx, ?_⟩
    intro v
    rw [List.mem_filter]
    simp
  · have hres : resolveItems kvS "submission:" [i1, i2]
        = [Stored.subm r1, Stored.subm r2] := by
      rw [resolveItems_cons_hit _ _ _ _ _ hg1 rfl,
        resolveItems_cons_hit _ _ _ _ _ hg2 rfl, resolveItems_nil]
    rw [handleSubmissionsGet_filter_eq kvS [i1, i2] X hX hidxS, hres]
    simp [Stored.getAssignmentId, ha1, ha2, hYX]

/-- A store with two persisted submissions (`assignmentId` `"X"` and
`"XY"`) and their index. -/
def kvC6 : Store := fun k =>
  if k = indexKey "submissions" then some (Raw.parsed (Stored.index ["s1", "s2"]))
  else if k = subKey "s1" then
    some (Raw.parsed (Stored.subm ⟨"s1", "X", "Ana", "", "r1", "", "", "t1"⟩))
  else if k = subKey "s2" then
    some (Raw.parsed (Stored.subm ⟨"s2", "XY", "Bob", "", "r2", "", "", "t2"⟩))
  else none

/-- Witness for C6: filtering `kvC6` by `"X"` keeps only the first
submission (in particular the `"XY"` one is no partial-prefix match). -/
theorem claim_C6_witness :
    (∃ items : List Stored, handleSubmissionsGet kvC6 (some "X") = some (Resp.listR items.reverse)
      ∧ ∀ v, v ∈ items ↔ (v ∈ resolveItems kvC6 "submission:" ["s1", "s2"]
          ∧ v.getAssignmentId = some "X"))
    ∧ handleSubmissionsGet kvC6 (some "X")
        = some (Resp.listR [Stored.subm ⟨"s1", "X", "Ana", "", "r1", "", "", "t1"⟩]) :=
  claim_C6 kvC6 kvC6 ["s1", "s2"] "X" "XY" "s1" "s2"
    ⟨"s1", "X", "Ana", "", "r1", "", "", "t1"⟩ ⟨"s2", "XY", "Bob", "", "r2", "", "", "t2"⟩
    (by decide) (by decide) (by decide) (by decide) (by decide) (by decide) rfl rfl

/-- Counterexample to C7 as stated: the caller supplies `createdAt: ""`
(a present, caller-supplied value), yet the persisted record's timestamp is
the server time `"NOW"`, not the caller's value — JS `||` treats the empty
string as absent. -/
theorem claim_C7_counterexample :
    (⟨some "t", some "p", none, none, some ""⟩ : AsgnBody).createdAt = some ""
    ∧ (handleAssignmentsPost emptyStore ⟨some "t", some "p", none, none, some ""⟩
        "a1" "NOW").2
        = some (Resp.createdR "a1" (Stored.asgn ⟨"a1", "t", "p", "", "", "NOW"⟩))
    ∧ ("NOW" : String) ≠ "" := by
  refine ⟨rfl, by decide, by decide⟩

/-- Claim C7 (amended): when the caller supplies a non-empty `createdAt`
(resp. `submittedAt`), the persisted record's timestamp is the caller's
value unchanged; when the caller omits it — or supplies the empty string,
which the JS `||` default treats as absent — the timestamp is the server
time of the request. -/
theorem claim_C7 (kv kvS : Store) (aB1 aB2 : AsgnBody) (sB1 sB2 : SubBody)
    (idxA idxS : List String) (av : Stored)
    (c cs aid idA1 idA2 idS1 idS2 nowA1 nowA2 nowS1 nowS2 : String)
    (ht1 : requiredTrimmed aB1.title = true) (hp1 : requiredTrimmed aB1.prompt = true)
    (ht2 : requiredTrimmed aB2.title = true) (hp2 : requiredTrimmed aB2.prompt = true)
    (hc1 : aB1.createdAt = some c) (hcne : c ≠ "")
    (hc2 : aB2.createdAt = none ∨ aB2.createdAt = some "")
    (hidxA : getIndex kv "assignments" = some idxA)
    (hs1a : sB1.assignmentId = some aid) (hs2a : sB2.assignmentId = some aid)
    (haidne : aid ≠ "")
    (hs1n : requiredTrimmed sB1.studentName = true)
    (hs1r : requiredTrimmed sB1.response = true)
    (hs2n : requiredTrimmed sB2.studentName = true)
    (hs2r : requiredTrimmed sB2.response = true)
    (hcs1 : sB1.submittedAt = some cs) (hcsne : cs ≠ "")
    (hcs2 : sB2.submittedAt = none ∨ sB2.submittedAt = some "")
    (hget : kvGet kvS (asgnKey aid) = some av) (htr : av.truthy = true)
    (hidxS : getIndex kvS "submissions" = some idxS) :
    (∃ kv1 r1, handleAssignmentsPost kv aB1 idA1 nowA1
        = (kv1, some (Resp.createdR idA1 (Stored.asgn r1)))
      ∧ kvGet kv1 (asgnKey idA1) = some (Stored.asgn r1) ∧ r1.createdAt = c)
    ∧ (∃ kv2 r2, handleAssignmentsPost kv aB2 idA2 nowA2
        = (kv2, some (Resp.createdR idA2 (Stored.asgn r2)))
      ∧ kvGet kv2 (asgnKey idA2) = some (Stored.asgn r2) ∧ r2.createdAt = nowA2)
    ∧ (∃ kv3 r3, handleSubmissionsPost kvS sB1 idS1 nowS1
        = (kv3, some (Resp.createdR idS1 (Stored.subm r3)))
      ∧ kvGet kv3 (subKey idS1) = some (Stored.subm r3) ∧ r3.submittedAt = cs)
    ∧ (∃ kv4 r4, handleSubmissionsPost kvS sB2 idS2 nowS2
        = (kv4, some (Resp.createdR idS2 (Stored.subm r4)))
      ∧ kvGet kv4 (subKey idS2) = some (Stored.subm r4) ∧ r4.submittedAt = nowS2) := by
  have haT1 : jsTruthy sB1.assignmentId = true := by rw [hs1a]; simp [jsTruthy, haidne]
  have haT2 : jsTruthy sB2.assignmentId = true := by rw [hs2a]; simp [jsTruthy, haidne]
  refine ⟨⟨_, _, handleAssignmentsPost_success kv aB1 idA1 nowA1 idxA ht1 hp1 hidxA,
      ?_, ?_⟩,
    ⟨_, _, handleAssignmentsPost_success kv aB2 idA2 nowA2 idxA ht2 hp2 hidxA,
      ?_, ?_⟩,
    ⟨_, _, handleSubmissionsPost_success kvS sB1 idS1 nowS1 aid idxS av
      hs1a haT1 hs1n hs1r hget htr hidxS, ?_, ?_⟩,
    ⟨_, _, handleSubmissionsPost_success kvS sB2 idS2 nowS2 aid idxS av
      hs2a haT2 hs2n hs2r hget htr hidxS, ?_, ?_⟩⟩
  · rw [kvGet_kvPut_ne _ _ _ _ (asgnKey_ne_indexKey idA1 "assignments"), kvGet_kvPut_same]
  · simp [asgnRecord, jsOr, hc1, hcne]
  · rw [kvGet_kvPut_ne _ _ _ _ (asgnKey_ne_indexKey idA2 "assignments"), kvGet_kvPut_same]
  · rcases hc2 with h | h <;> simp [asgnRecord, jsOr, h]
  · rw [kvGet_kvPut_ne _ _ _ _ (subKey_ne_indexKey idS1 "submissions"), kvGet_kvPut_same]
  · simp [subRecord, jsOr, hcs1, hcsne]
  · rw [kvGet_kvPut_ne _ _ _ _ (subKey_ne_indexKey idS2 "submissions"), kvGet_kvPut_same]
  · rcases hcs2 with h | h <;> simp [subRecord, jsOr, h]

/-- A store holding one assignment record under `assignment:A`. -/
def kvC7 : Store := fun k =>
  if k = asgnKey "A" then
    some (Raw.parsed (Stored.asgn ⟨"A", "t", "p", "", "", "z"⟩))
  else none

/-- Witness for the amended C7: kept caller timestamps (`"2020"`,
`"2021"`) and server-generated ones (`"n2"`, `"n4"`) on concrete bodies. -/
theorem claim_C7_witness :
    (∃ kv1 r1, handleAssignmentsPost emptyStore ⟨some "t", some "p", none, none, some "2020"⟩
        "a1" "n1" = (kv1, some (Resp.createdR "a1" (Stored.asgn r1)))
      ∧ kvGet kv1 (asgnKey "a1") = some (Stored.asgn r1) ∧ r1.createdAt = "2020")
    ∧ (∃ kv2 r2, handleAssignmentsPost emptyStore ⟨some "t", some "p", none, none, some ""⟩
        "a2" "n2" = (kv2, some (Resp.createdR "a2" (Stored.asgn r2)))
      ∧ kvGet kv2 (asgnKey "a2") = some (Stored.asgn r2) ∧ r2.createdAt = "n2")
    ∧ (∃ kv3 r3, handleSubmissionsPost kvC7
        ⟨some "A", some "Ana", some "r", none, none, none, some "2021"⟩
        "s1" "n3" = (kv3, some (Resp.createdR "s1" (Stored.subm r3)))
      ∧ kvGet kv3 (subKey "s1") = some (Stored.subm r3) ∧ r3.submittedAt = "2021")
    ∧ (∃ kv4 r4, handleSubmissionsPost kvC7
        ⟨some "A", some "Ana", some "r", none, none, none, none⟩
        "s2" "n4" = (kv4, some (Resp.createdR "s2" (Stored.subm r4)))
      ∧ kvGet kv4 (subKey "s2") = some (Stored.subm r4) ∧ r4.submittedAt = "n4") :=
  claim_C7 emptyStore kvC7
    ⟨some "t", some "p", none, none, some "2020"⟩ ⟨some "t", some "p", none, none, some ""⟩
    ⟨some "A", some "Ana", some "r", none, none, none, some "2021"⟩
    ⟨some "A", some "Ana", some "r", none, none, none, none⟩
    [] [] (Stored.asgn ⟨"A", "t", "p", "", "", "z"⟩)
    "2020" "2021" "A" "a1" "a2" "s1" "s2" "n1" "n2" "n3" "n4"
    (by decide) (by decide) (by decide) (by decide)
    rfl (by decide) (Or.inr rfl) (by decide)
    rfl rfl (by decide)
    (by decide) (by decide) (by decide) (by decide)
    rfl (by decide) (Or.inl rfl)
    (by decide) rfl (by decide)

theorem handleAssignmentsPost_created_inv (kv kvA : Store) (body : AsgnBody)
    (id now rid : String) (it : Stored)
    (h : handleAssignmentsPost kv body id now = (kvA, some (Resp.createdR rid it))) :
    ∃ idx1, kvA = kvPut (kvPut kv (asgnKey id) (Stored.asgn (asgnRecord body id now)))
        (indexKey "assignments") (Stored.index idx1) := by
  by_cases h1 : requiredTrimmed body.title = true
  · by_cases h2 : requiredTrimmed body.prompt = true
    · cases hgi : getIndex kv "assignments" with
      | none =>
          have hgi1 : getIndex (kvPut kv (asgnKey id)
              (Stored.asgn (asgnRecord body id now))) "assignments" = none := by
            rw [getIndex_kvPut_ne _ _ _ _ (asgnKey_ne_indexKey id "assignments").symm, hgi]
          have hthrow : handleAssignmentsPost kv body id now
              = (kvPut kv (asgnKey id) (Stored.asgn (asgnRecord body id now)), none) := by
            simp [handleAssignmentsPost, h1, h2, pushIndex, hgi1]
          rw [hthrow] at h
          exact absurd (congrArg Prod.snd h) (by simp)
      | some idx =>
          rw [handleAssignmentsPost_success kv body id now idx h1 h2 hgi] at h
          exact ⟨_, (congrArg Prod.fst h).symm⟩
    · have h2' : requiredTrimmed body.prompt = false := by simpa using h2
      have herr : handleAssignmentsPost kv body id now
          = (kv, some (Resp.errR "prompt is required" 400)) := by
        simp [handleAssignmentsPost, h1, h2']
      rw [herr] at h
      exact absurd (congrArg Prod.snd h) (by simp)
  · have h1' : requiredTrimmed body.title = false := by simpa using h1
    have herr : handleAssignmentsPost kv body id now
        = (kv, some (Resp.errR "title is required" 400)) := by
      simp [handleAssignmentsPost, h1']
    rw [herr] at h
    exact absurd (congrArg Prod.snd h) (by simp)

theorem handleSubmissionsPost_created_inv (kv kvB : Store) (body : SubBody)
    (id now rid : String) (it : Stored)
    (h : handleSubmissionsPost kv body id now = (kvB, some (Resp.createdR rid it))) :
    ∃ idx1, kvB = kvPut (kvPut kv (subKey id) (Stored.subm (subRecord body id now)))
        (indexKey "submissions") (Stored.index idx1) := by
  cases hba : body.assignmentId with
  | none =>
      have herr : handleSubmissionsPost kv body id now
          = (kv, some (Resp.errR "assignmentId is required" 400)) := by
        simp [handleSubmissionsPost, jsTruthy, hba]
      rw [herr] at h
      exact absurd (congrArg Prod.snd h) (by simp)
  | some aid =>
      by_cases hae : aid = ""
      · have herr : handleSubmissionsPost kv body id now
            = (kv, some (Resp.errR "assignmentId is required" 400)) := by
          simp [handleSubmissionsPost, jsTruthy, hba, hae]
        rw [herr] at h
        exact absurd (congrArg Prod.snd h) (by simp)
      · have h1 : jsTruthy body.assignmentId = true := by rw [hba]; simp [jsTruthy, hae]
        have haid : body.assignmentId.getD "" = aid := by rw [hba]; rfl
        by_cases h2 : requiredTrimmed body.studentName = true
        · by_cases h3 : requiredTrimmed body.response = true
          · cases hk : kvGet kv (asgnKey aid) with
            | none =>
                have herr : handleSubmissionsPost kv body id now
                    = (kv, some (Resp.errR "assignment not found" 404)) := by
                  simp [handleSubmissionsPost, h1, h2, h3, haid, hk]
                rw [herr] at h
                exact absurd (congrArg Prod.snd h) (by simp)
            | some a =>
                by_cases ht : a.truthy = true
                · cases hgi : getIndex kv "submissions" with
                  | none =>
                      have hgi1 : getIndex (kvPut kv (subKey id)
                          (Stored.subm (subRecord body id now))) "submissions" = none := by
                        rw [getIndex_kvPut_ne _ _ _ _
                          (subKey_ne_indexKey id "submissions").symm, hgi]
                      have hthrow : handleSubmissionsPost kv body id now
                          = (kvPut kv (subKey id) (Stored.subm (subRecord body id now)),
                             none) := by
                        simp [handleSubmissionsPost, h1, h2, h3, haid, hk, ht,
                          pushIndex, hgi1]
                      rw [hthrow] at h
                      exact absurd (congrArg Prod.snd h) (by simp)
                  | some idx =>
                      rw [handleSubmissionsPost_success kv body id now aid idx a
                        hba h1 h2 h3 hk ht hgi] at h
                      exact ⟨_, (congrArg Prod.fst h).symm⟩
                · have ht' : a.truthy = false := by simpa using ht
                  have herr : handleSubmissionsPost kv body id now
                      = (kv, some (Resp.errR "assignment not found" 404)) := by
                    simp [handleSubmissionsPost, h1, h2, h3, haid, hk, ht']
                  rw [herr] at h
                  exact absurd (congrArg Prod.snd h) (by simp)
          · have h3' : requiredTrimmed body.response = false := by simpa using h3
            have herr : handleSubmissionsPost kv body id now
                = (kv, some (Resp.errR "response is required" 400)) := by
              simp [handleSubmissionsPost, h1, h2, h3']
            rw [herr] at h
            exact absurd (congrArg Prod.snd h) (by simp)
        · have h2' : requiredTrimmed body.studentName = false := by simpa using h2
          have herr : handleSubmissionsPost kv body id now
              = (kv, some (Resp.errR "studentName is required" 400)) := by
            simp [handleSubmissionsPost, h1, h2']
          rw [herr] at h
          exact absurd (congrArg Prod.snd h) (by simp)

/-- Claim C9 (frame property): a successful Create-Assignment with a fresh
ID writes exactly `assignment:{id}` and `index:assignments`, and a
successful Create-Submission writes exactly `submission:{id}` and
`index:submissions`; the value under every other key is unchanged. -/
theorem claim_C9 (kv kvS kvA kvB : Store) (aB : AsgnBody) (sB : SubBody)
    (idA idS nowA nowS ridA ridS : String) (itA itS : Stored)
    (hfa : kv (asgnKey idA) = none) (hfs : kvS (subKey idS) = none)
    (hA : handleAssignmentsPost kv aB idA nowA = (kvA, some (Resp.createdR ridA itA)))
    (hS : handleSubmissionsPost kvS sB idS nowS = (kvB, some (Resp.createdR ridS itS))) :
    (kvA (asgnKey idA) = some (Raw.parsed (Stored.asgn (asgnRecord aB idA nowA)))
      ∧ (∃ idx1, kvA (indexKey "assignments") = some (Raw.parsed (Stored.index idx1)))
      ∧ ∀ k, k ≠ asgnKey idA → k ≠ indexKey "assignments" → kvA k = kv k)
    ∧ (kvB (subKey idS) = some (Raw.parsed (Stored.subm (subRecord sB idS nowS)))
      ∧ (∃ idx2, kvB (indexKey "submissions") = some (Raw.parsed (Stored.index idx2)))
      ∧ ∀ k, k ≠ subKey idS → k ≠ indexKey "submissions" → kvB k = kvS k) := by
  obtain ⟨idx1, hkvA⟩ := handleAssignmentsPost_created_inv kv kvA aB idA nowA ridA itA hA
  obtain ⟨idx2, hkvB⟩ := handleSubmissionsPost_created_inv kvS kvB sB idS nowS ridS itS hS
  subst hkvA
  subst hkvB
  refine ⟨⟨?_, ⟨idx1, ?_⟩, ?_⟩, ?_, ⟨idx2, ?_⟩, ?_⟩
  · simp [kvPut, asgnKey_ne_indexKey idA "assignments"]
  · simp [kvPut]
  · intro k hk1 hk2; simp [kvPut, hk1, hk2]
  · simp [kvPut, subKey_ne_indexKey idS "submissions"]
  · simp [kvPut]
  · intro k hk1 hk2; simp [kvPut, hk1, hk2]

/-- Body used by the C9 witness (assignments side). -/
def aWitBody : AsgnBody := ⟨some "t", some "p", none, none, none⟩

/-- Body used by the C9 witness (submissions side). -/
def sWitBody : SubBody := ⟨some "A", some "Ana", some "r", none, none, none, none⟩

/-- The store produced by the C9 witness Create-Assignment. -/
def kvA9 : Store :=
  kvPut (kvPut emptyStore (asgnKey "a1") (Stored.asgn (asgnRecord aWitBody "a1" "n")))
    (indexKey "assignments") (Stored.index ["a1"])

/-- The store produced by the C9 witness Create-Submission. -/
def kvB9 : Store :=
  kvPut (kvPut kvC7 (subKey "s1") (Stored.subm (subRecord sWitBody "s1" "m")))
    (indexKey "submissions") (Stored.index ["s1"])

/-- Witness for C9 on concrete creations. -/
theorem claim_C9_witness :
    (kvA9 (asgnKey "a1")
        = some (Raw.parsed (Stored.asgn (asgnRecord aWitBody "a1" "n")))
      ∧ (∃ idx1, kvA9 (indexKey "assignments") = some (Raw.parsed (Stored.index idx1)))
      ∧ ∀ k, k ≠ asgnKey "a1" → k ≠ indexKey "assignments" → kvA9 k = emptyStore k)
    ∧ (kvB9 (subKey "s1")
        = some (Raw.parsed (Stored.subm (subRecord sWitBody "s1" "m")))
      ∧ (∃ idx2, kvB9 (indexKey "submissions") = some (Raw.parsed (Stored.index idx2)))
      ∧ ∀ k, k ≠ subKey "s1" → k ≠ indexKey "submissions" → kvB9 k = kvC7 k) :=
  claim_C9 emptyStore kvC7 kvA9 kvB9 aWitBody sWitBody "a1" "s1" "n" "m" "a1" "s1"
    (Stored.asgn (asgnRecord aWitBody "a1" "n"))
    (Stored.subm (subRecord sWitBody "s1" "m"))
    rfl rfl rfl rfl

/-- Claim C10: `assignmentId` is never trimmed.  A whitespace-only
`assignmentId` passes the truthiness-only field check and, when the
verbatim key fails to resolve, yields a 404 (not a 400 validation reply);
when the verbatim key does resolve, the persisted record stores the
`assignmentId` verbatim — untrimmed, differing from its own trim. -/
theorem claim_C10 (kv kvR : Store) (b1 b2 : SubBody) (id1 id2 now1 now2 aid : String)
    (idxS : List String) (av : Stored)
    (ha1 : b1.assignmentId = some aid) (ha2 : b2.assignmentId = some aid)
    (hws : jsTrim aid = "") (hne : aid ≠ "")
    (hn1 : requiredTrimmed b1.studentName = true)
    (hr1 : requiredTrimmed b1.response = true)
    (hn2 : requiredTrimmed b2.studentName = true)
    (hr2 : requiredTrimmed b2.response = true)
    (hmiss : ∀ v, kvGet kv (asgnKey aid) = some v → v.truthy = false)
    (hhit : kvGet kvR (asgnKey aid) = some av) (htr : av.truthy = true)
    (hidxR : getIndex kvR "submissions" = some idxS) :
    handleSubmissionsPost kv b1 id1 now1
      = (kv, some (Resp.errR "assignment not found" 404))
    ∧ (Resp.errR "assignment not found" 404).status = 404
    ∧ ∃ kv2, handleSubmissionsPost kvR b2 id2 now2
        = (kv2, some (Resp.createdR id2 (Stored.subm (subRecord b2 id2 now2))))
      ∧ kvGet kv2 (subKey id2) = some (Stored.subm (subRecord b2 id2 now2))
      ∧ (subRecord b2 id2 now2).assignmentId = aid
      ∧ (subRecord b2 id2 now2).assignmentId
          ≠ jsTrim ((subRecord b2 id2 now2).assignmentId) := by
  have haid1 : b1.assignmentId.getD "" = aid := by rw [ha1]; rfl
  have haT1 : jsTruthy b1.assignmentId = true := by rw [ha1]; simp [jsTruthy, hne]
  refine ⟨?_, rfl, ?_⟩
  · cases hk : kvGet kv (asgnKey aid) with
    | none => simp [handleSubmissionsPost, haT1, hn1, hr1, haid1, hk]
    | some v => simp [handleSubmissionsPost, haT1, hn1, hr1, haid1, hk, hmiss v hk]
  · have haT2 : jsTruthy b2.assignmentId = true := by rw [ha2]; simp [jsTruthy, hne]
    have hrec : (subRecord b2 id2 now2).assignmentId = aid := by
      simp [subRecord, ha2]
    refine ⟨_, handleSubmissionsPost_success kvR b2 id2 now2 aid idxS av
      ha2 haT2 hn2 hr2 hhit htr hidxR, ?_, hrec, ?_⟩
    · rw [kvGet_kvPut_ne _ _ _ _ (subKey_ne_indexKey id2 "submissions"), kvGet_kvPut_same]
    · rw [hrec, hws]; exact hne

/-- A store holding a truthy assignment record under the whitespace key
`assignment: `. -/
def kvC10 : Store := fun k =>
  if k = asgnKey " " then
    some (Raw.parsed (Stored.asgn ⟨" ", "t", "p", "", "", "z"⟩))
  else none

/-- Witness for C10 with the whitespace-only `assignmentId` `" "`. -/
theorem claim_C10_witness :
    handleSubmissionsPost emptyStore ⟨some " ", some "Ana", some "r", none, none, none, none⟩
        "s1" "n1" = (emptyStore, some (Resp.errR "assignment not found" 404))
    ∧ (Resp.errR "assignment not found" 404).status = 404
    ∧ ∃ kv2, handleSubmissionsPost kvC10
        ⟨some " ", some "Ana", some "r", none, none, none, none⟩ "s2" "n2"
        = (kv2, some (Resp.createdR "s2" (Stored.subm
            (subRecord ⟨some " ", some "Ana", some "r", none, none, none, none⟩ "s2" "n2"))))
      ∧ kvGet kv2 (subKey "s2") = some (Stored.subm
          (subRecord ⟨some " ", some "Ana", some "r", none, none, none, none⟩ "s2" "n2"))
      ∧ (subRecord ⟨some " ", some "Ana", some "r", none, none, none, none⟩ "s2" "n2").assignmentId = " "
      ∧ (subRecord ⟨some " ", some "Ana", some "r", none, none, none, none⟩ "s2" "n2").assignmentId
          ≠ jsTrim ((subRecord ⟨some " ", some "Ana", some "r", none, none, none, none⟩ "s2" "n2").assignmentId) :=
  claim_C10 emptyStore kvC10
    ⟨some " ", some "Ana", some "r", none, none, none, none⟩
    ⟨some " ", some "Ana", some "r", none, none, none, none⟩
    "s1" "s2" "n1" "n2" " " [] (Stored.asgn ⟨" ", "t", "p", "", "", "z"⟩)
    rfl rfl (by decide) (by decide) (by decide) (by decide) (by decide) (by decide)
    (by intro v hv; simp [kvGet, emptyStore] at hv)
    (by decide) rfl (by decide)
